/-
Verification of the draino node-lifecycle core:
`internal/kubernetes/eventhandler.go` (drain orchestrator) and
`internal/kubernetes/nodefilters.go` (node eligibility filters).

Shallow embedding conventions:
* `time.Time` and `time.Duration` are modelled as `Int` nanoseconds
  (Go's `time.Duration` is an int64 nanosecond count).
* Go `interface{}` values handed to the filters are `Obj := Option Node`:
  `some n` is a `*core.Node`, `none` is any other object (the type
  assertion fails).
* Functions that can panic in Go (index out of range) return `Option`:
  `none` models the panic aborting the function.
* The external `CordonDrainer` capability is modelled by its outcome:
  `Option String` where `some msg` is a returned error and `none` success.
* Event emission and metric recording are modelled by accumulating the
  emitted records in lists, in program order.
-/
import Mathlib

namespace Draino

/-! ### Data model (the parts of `core.Node` the code reads) -/

/-- A node condition: `core.NodeCondition`, restricted to the fields read by
the filters (`Type`, `Status`, `LastTransitionTime`). -/
structure NodeCondition where
  condType : String
  condStatus : String
  lastTransitionTime : Int
deriving DecidableEq, Repr

/-- The parts of `core.Node` that this code reads: `GetName()`, `GetUID()`,
`GetLabels()`, `Status.Conditions`, `Spec.Unschedulable`. -/
structure Node where
  name : String
  uid : String
  labels : List (String × String)
  conditions : List NodeCondition
  unschedulable : Bool
deriving DecidableEq, Repr

/-- A Go `interface{}` argument: either a `*core.Node` or something else. -/
abbrev Obj := Option Node

/-! ### Drain orchestrator (`eventhandler.go`) -/

/-- `DefaultDrainBuffer = 10 * time.Minute`, in nanoseconds. -/
def DefaultDrainBuffer : Int := 600000000000

/-- The mutable fields of `DrainingResourceEventHandler`
(`lastDrainScheduledFor time.Time`, `buffer time.Duration`). The logger,
drainer and event recorder are modelled by the outcome/accumulator
parameters of `cordonAndDrain`. -/
structure HandlerState where
  lastDrainScheduledFor : Int
  buffer : Int
deriving DecidableEq, Repr

/-- An emitted event: the node reference it is attached to and its reason
code (`CordonStarting`, `CordonSucceeded`, ...). -/
structure Event where
  node : String
  reason : String
deriving DecidableEq, Repr

/-- A recorded measurement: the measure name (`draino/nodes_cordoned` or
`draino/nodes_drained`) with its `node_name` and `result` tags. -/
structure Metric where
  measure : String
  node : String
  result : String
deriving DecidableEq, Repr

/-- Result of one call to `cordonAndDrain`, up to but not including the
deferred `time.AfterFunc` callback: the updated handler state, the events
and metrics emitted so far, and—when a drain was scheduled—the delay `d`
handed to `time.AfterFunc`. -/
structure CordonResult where
  state : HandlerState
  events : List Event
  metrics : List Metric
  drainScheduled : Option Int
deriving DecidableEq, Repr

/-- `(h *DrainingResourceEventHandler) cordonAndDrain(n *core.Node)`, the
synchronous part (lines 121-150 of `eventhandler.go`).
`cordonErr` is what `h.d.Cordon(n)` returns; `now` is `time.Now()` at
line 144. Emits `CordonStarting`, then on cordon error emits
`CordonFailed`, records a failed `nodes_cordoned` metric and returns;
on success emits `CordonSucceeded`, records a succeeded metric, computes
`d = lastDrainScheduledFor - now + buffer`, sets
`lastDrainScheduledFor = now + d`, emits `DrainScheduled` and arms
`time.AfterFunc(d, ...)`. -/
def cordonAndDrain (h : HandlerState) (name : String) (cordonErr : Option String)
    (now : Int) : CordonResult :=
  match cordonErr with
  | some _ =>
      { state := h
        events := [⟨name, "CordonStarting"⟩, ⟨name, "CordonFailed"⟩]
        metrics := [⟨"draino/nodes_cordoned", name, "failed"⟩]
        drainScheduled := none }
  | none =>
      let d := h.lastDrainScheduledFor - now + h.buffer
      { state := { h with lastDrainScheduledFor := now + d }
        events := [⟨name, "CordonStarting"⟩, ⟨name, "CordonSucceeded"⟩,
                   ⟨name, "DrainScheduled"⟩]
        metrics := [⟨"draino/nodes_cordoned", name, "succeeded"⟩]
        drainScheduled := some d }

/-- Result of the deferred `time.AfterFunc` callback. -/
structure DrainResult where
  state : HandlerState
  events : List Event
  metrics : List Metric
deriving DecidableEq, Repr

/-- The deferred drain callback (lines 150-165): sets
`lastDrainScheduledFor = time.Now()`, emits `DrainStarting`, invokes
`h.d.Drain(n)` (`drainErr` is its result), then emits `DrainFailed` or
`DrainSucceeded` and records the `nodes_drained` metric. `fireNow` is
`time.Now()` at line 151. -/
def deferredDrain (h : HandlerState) (name : String) (drainErr : Option String)
    (fireNow : Int) : DrainResult :=
  let h' := { h with lastDrainScheduledFor := fireNow }
  match drainErr with
  | some _ =>
      { state := h'
        events := [⟨name, "DrainStarting"⟩, ⟨name, "DrainFailed"⟩]
        metrics := [⟨"draino/nodes_drained", name, "failed"⟩] }
  | none =>
      { state := h'
        events := [⟨name, "DrainStarting"⟩, ⟨name, "DrainSucceeded"⟩]
        metrics := [⟨"draino/nodes_drained", name, "succeeded"⟩] }

/-- The whole lifecycle of one node through the orchestrator:
`cordonAndDrain`, followed—iff a drain was scheduled—by the deferred
callback firing at `now + d` (the delay given to `time.AfterFunc`).
`drainInvoked` records whether `h.d.Drain(n)` was ever called. -/
structure ProcessResult where
  state : HandlerState
  events : List Event
  metrics : List Metric
  drainInvoked : Bool
deriving DecidableEq, Repr

def processNode (h : HandlerState) (name : String) (cordonErr drainErr : Option String)
    (now : Int) : ProcessResult :=
  let r := cordonAndDrain h name cordonErr now
  match r.drainScheduled with
  | none =>
      { state := r.state, events := r.events, metrics := r.metrics
        drainInvoked := false }
  | some d =>
      let dr := deferredDrain r.state name drainErr (now + d)
      { state := dr.state
        events := r.events ++ dr.events
        metrics := r.metrics ++ dr.metrics
        drainInvoked := true }

/-! ### Steps on the orchestrator state, for the pacing-clock invariant -/

/-- One mutation of the shared orchestrator state: either a
`cordonAndDrain` call (with the cordon outcome and the value of
`time.Now()`), or a deferred drain callback firing (which resets
`lastDrainScheduledFor` to `time.Now()`). -/
inductive HStep where
  | cordon (name : String) (cordonErr : Option String) (now : Int)
  | drainFire (name : String) (drainErr : Option String) (now : Int)
deriving DecidableEq, Repr

def HStep.isDrainFire : HStep → Bool
  | .drainFire _ _ _ => true
  | .cordon _ _ _ => false

def applyStep (h : HandlerState) : HStep → HandlerState
  | .cordon name err now => (cordonAndDrain h name err now).state
  | .drainFire name err now => (deferredDrain h name err now).state

def runSteps (h : HandlerState) (steps : List HStep) : HandlerState :=
  steps.foldl applyStep h

/-! ### Node filters (`nodefilters.go`) -/

/-- Lookup in a Go `map[string]string`, modelled as an association list
with unique keys: `value, ok := m[k]`. -/
def lookupLabel (m : List (String × String)) (k : String) : Option String :=
  (m.find? (fun p => p.1 == k)).map (fun p => p.2)

/-- `NewNodeLabelFilter(labels)` applied to an object (lines 29-42):
false for non-nodes; otherwise false iff some required key is absent or
bound to a different value. -/
def NewNodeLabelFilter (labels : List (String × String)) (o : Obj) : Bool :=
  match o with
  | none => false
  | some n =>
      labels.all (fun kv =>
        match lookupLabel n.labels kv.1 with
        | some value => value == kv.2
        | none => false)

/-- `strings.SplitN(s, sep, 2)` for a one-character separator: split at
the first occurrence of `sep`; if `sep` does not occur the result is the
single-element list `[s]`. Helper working on the character list. -/
def splitFirstAux (sep : Char) : List Char → Option (List Char × List Char)
  | [] => none
  | c :: rest =>
      if c == sep then some ([], rest)
      else (splitFirstAux sep rest).map (fun p => (c :: p.1, p.2))

def splitN2 (s : String) (sep : Char) : List String :=
  match splitFirstAux sep s.data with
  | none => [s]
  | some (a, b) => [String.mk a, String.mk b]

/-! #### `time.ParseDuration` (Go standard library)

Modelled for the duration grammar this program feeds it: an optional
sign, then one or more `<integer><unit>` components with units
`ns`, `us`, `µs`, `ms`, `s`, `m`, `h`, plus the special case `"0"`.
Fractional components (`"1.5h"`) and int64 overflow are outside the
model; every string without a valid integer+unit component is an error
(`none`), as in Go. Result in nanoseconds. -/

def takeDigits : List Char → List Char × List Char
  | [] => ([], [])
  | c :: rest =>
      if c.isDigit then
        let p := takeDigits rest
        (c :: p.1, p.2)
      else ([], c :: rest)

def digitsToNat (ds : List Char) : Nat :=
  ds.foldl (fun acc c => acc * 10 + (c.toNat - 48)) 0

/-- Nanoseconds per unit, matching the longest unit name first
(`ms` before `m`), with the tail of the input returned. -/
def unitNanos : List Char → Option (Int × List Char)
  | 'n' :: 's' :: r => some (1, r)
  | 'u' :: 's' :: r => some (1000, r)
  | 'µ' :: 's' :: r => some (1000, r)
  | 'm' :: 's' :: r => some (1000000, r)
  | 'm' :: r => some (60000000000, r)
  | 's' :: r => some (1000000000, r)
  | 'h' :: r => some (3600000000000, r)
  | _ => none

/-- Parse a nonempty sequence of `<digits><unit>` components; `fuel`
bounds the recursion by the input length. -/
def parseComponents : Nat → List Char → Option Int
  | _, [] => some 0
  | 0, _ => none
  | fuel + 1, cs =>
      let p := takeDigits cs
      if p.1.isEmpty then none
      else
        match unitNanos p.2 with
        | none => none
        | some (mult, r2) =>
            match parseComponents fuel r2 with
            | none => none
            | some rest => some ((digitsToNat p.1 : Int) * mult + rest)

def parseDuration (s : String) : Option Int :=
  match s.data with
  | [] => none
  | cs =>
      let signed : Bool × List Char :=
        match cs with
        | '-' :: r => (true, r)
        | '+' :: r => (false, r)
        | _ => (false, cs)
      if signed.2.isEmpty then none
      else if signed.2 = ['0'] then some 0
      else
        match parseComponents signed.2.length signed.2 with
        | none => none
        | some v => some (if signed.1 then -v else v)

/-- `SuppliedCondition` (type, status, minimum duration). -/
structure SuppliedCondition where
  condType : String
  condStatus : String
  minimumDuration : Int
deriving DecidableEq, Repr

/-- The zero value `SuppliedCondition{}`: what `parsed[i]` holds when the
loop body never assigns it. -/
def zeroCondition : SuppliedCondition := ⟨"", "", 0⟩

/-- One iteration of the `ParseConditions` loop (lines 71-82):
`ts := strings.SplitN(c, "=", 2)`; if not two parts, replace with
`[c, "True,0s"]`; `sm := strings.SplitN(ts[1], ",", 2)`; then
`time.ParseDuration(sm[1])`—an out-of-range access (`sm` has one
element) panics, modelled as `none`; a parse error leaves the entry at
its zero value. -/
def parseConditionEntry (c : String) : Option SuppliedCondition :=
  let ts0 := splitN2 c '='
  let ts := if ts0.length ≠ 2 then [c, "True,0s"] else ts0
  match ts with
  | [t, v] =>
      match splitN2 v ',' with
      | [status, durStr] =>
          match parseDuration durStr with
          | some d => some ⟨t, status, d⟩
          | none => some zeroCondition
      | _ => none
  | _ => none

/-- `ParseConditions(conditions)` (lines 69-84). A panic in any iteration
aborts the whole call (`none`). -/
def ParseConditions (conditions : List String) : Option (List SuppliedCondition) :=
  conditions.mapM parseConditionEntry

/-- Whether a node condition `c` satisfies a spec `t` at time `now`
(line 58): `c.Type == t.Type && c.Status == t.Status &&
c.LastTransitionTime.Add(t.MinimumDuration).Before(time.Now())` —
note `Before` is strict. -/
def conditionMatches (now : Int) (t : SuppliedCondition) (c : NodeCondition) : Bool :=
  c.condType == t.condType && c.condStatus == t.condStatus &&
    decide (c.lastTransitionTime + t.minimumDuration < now)

/-- `NewNodeConditionFilter(ct)` applied to an object at time `now`
(lines 46-65): false for non-nodes; true for an empty `ct` before any
parsing; otherwise parse (which may panic) and scan specs × conditions. -/
def NewNodeConditionFilter (ct : List String) (now : Int) (o : Obj) : Option Bool :=
  match o with
  | none => some false
  | some n =>
      if ct.length == 0 then some true
      else
        (ParseConditions ct).map (fun pc =>
          pc.any (fun t => n.conditions.any (fun c => conditionMatches now t c)))

/-- `NodeSchedulableFilter` (lines 88-94). -/
def NodeSchedulableFilter (o : Obj) : Bool :=
  match o with
  | none => false
  | some n => !n.unschedulable

/-! #### `NodeProcessed` (lines 96-117): the seen-UID set -/

/-- `NodeProcessed` is `map[types.UID]bool`; modelled as the list of UIDs
mapped to `true` (entries are only ever set to `true`). -/
abbrev NodeProcessed := List String

def NewNodeProcessed : NodeProcessed := []

/-- `(processed NodeProcessed) Filter(o)` (lines 107-117): false for
non-nodes; false if the UID was seen; otherwise mark it seen and return
true. Returns the result together with the updated map. -/
def nodeProcessedFilter (processed : NodeProcessed) (o : Obj) : Bool × NodeProcessed :=
  match o with
  | none => (false, processed)
  | some n =>
      if processed.contains n.uid then (false, processed)
      else (true, n.uid :: processed)

/-- The results of applying `Filter` successively to a list of objects,
threading the map through. -/
def runProcessed (s : NodeProcessed) : List Obj → List Bool
  | [] => []
  | o :: rest =>
      let p := nodeProcessedFilter s o
      p.1 :: runProcessed p.2 rest

/-- Whether an object is a node carrying the UID `u`. -/
def seesUid (u : String) (o : Obj) : Bool :=
  match o with
  | some m => m.uid == u
  | none => false

/-! ### Helper lemmas -/

theorem runSteps_nil (h : HandlerState) : runSteps h [] = h := rfl

theorem runSteps_append (h : HandlerState) (a b : List HStep) :
    runSteps h (a ++ b) = runSteps (runSteps h a) b := by
  simp [runSteps, List.foldl_append]

theorem runSteps_singleton (h : HandlerState) (s : HStep) :
    runSteps h [s] = applyStep h s := rfl

theorem applyStep_buffer (h : HandlerState) (s : HStep) :
    (applyStep h s).buffer = h.buffer := by
  cases s with
  | cordon name err now => cases err <;> rfl
  | drainFire name err now => cases err <;> rfl

theorem runSteps_buffer (h : HandlerState) (steps : List HStep) :
    (runSteps h steps).buffer = h.buffer := by
  induction steps generalizing h with
  | nil => rfl
  | cons s rest ih =>
      show (runSteps (applyStep h s) rest).buffer = h.buffer
      rw [ih, applyStep_buffer]

theorem applyStep_mono (h : HandlerState) (s : HStep) (hb : 0 ≤ h.buffer)
    (hs : s.isDrainFire = false) :
    h.lastDrainScheduledFor ≤ (applyStep h s).lastDrainScheduledFor := by
  cases s with
  | drainFire name err now => simp [HStep.isDrainFire] at hs
  | cordon name err now =>
      cases err with
      | some e => exact le_refl _
      | none =>
          show h.lastDrainScheduledFor ≤ now + (h.lastDrainScheduledFor - now + h.buffer)
          omega

theorem mem_after_filter (s : NodeProcessed) (o : Obj) (u : String) :
    u ∈ (nodeProcessedFilter s o).2 ↔ (u ∈ s ∨ seesUid u o = true) := by
  cases o with
  | none => simp [nodeProcessedFilter, seesUid]
  | some m =>
      simp only [nodeProcessedFilter, seesUid, beq_iff_eq]
      by_cases hm : m.uid ∈ s
      · have hc : s.contains m.uid = true := by simpa using hm
        rw [hc]
        simp only [if_true]
        constructor
        · exact Or.inl
        · rintro (h | h)
          · exact h
          · exact h ▸ hm
      · have hc : s.contains m.uid = false := by simpa using hm
        rw [hc]
        simp only [Bool.false_eq_true, if_false, List.mem_cons]
        exact ⟨fun h => h.elim (fun h => Or.inr h.symm) Or.inl,
               fun h => h.elim Or.inr (fun h => Or.inl h.symm)⟩

theorem runProcessed_get (s : NodeProcessed) (pre post : List Obj) (n : Node) :
    (runProcessed s (pre ++ some n :: post))[pre.length]?
      = some (!(decide (n.uid ∈ s) || pre.any (seesUid n.uid))) := by
  induction pre generalizing s with
  | nil =>
      by_cases hm : n.uid ∈ s
      · have hc : s.contains n.uid = true := by simpa using hm
        simp [runProcessed, nodeProcessedFilter, hc, hm]
      · have hc : s.contains n.uid = false := by simpa using hm
        simp [runProcessed, nodeProcessedFilter, hc, hm]
  | cons o rest ih =>
      have hkey : decide (n.uid ∈ (nodeProcessedFilter s o).2)
          = (decide (n.uid ∈ s) || seesUid n.uid o) := by
        simp [mem_after_filter]
      have hrun : runProcessed s ((o :: rest) ++ some n :: post)
          = (nodeProcessedFilter s o).1 ::
            runProcessed (nodeProcessedFilter s o).2 (rest ++ some n :: post) := rfl
      rw [hrun, List.length_cons, List.getElem?_cons_succ, ih, hkey]
      simp [List.any_cons, Bool.or_assoc]

/-! ### Claim theorems -/

/-- C1, counterexample: with `lastDrainScheduledFor = 0`, `buffer = 10`
and `now = 100` (previous schedule in the past), the schedule computed by
a successful cordon is `0 + 10 = 10`, not the later of `now + buffer` and
`previous + buffer` (which is `110`). -/
theorem c1_max_counterexample :
    (cordonAndDrain ⟨0, 10⟩ "n1" none 100).state.lastDrainScheduledFor
      ≠ max (100 + 10) (0 + 10) := by decide

/-- C1, amended: for every successful cordon, the next permissible drain
time computed by `cordonAndDrain` equals the previous
`lastDrainScheduledFor + buffer` (that is, `now + (lastDrainScheduledFor
- now) + buffer`; this is the later of `now + buffer` and `previous +
buffer` only when the previous schedule is not in the past), and
`lastDrainScheduledFor` is updated to this candidate in the state
returned by the synchronous part of the call, while the deferred drain is
still pending: `drainScheduled` holds the armed timer delay `d`, with
`now + d` equal to the new schedule. -/
theorem c1_schedule_is_prev_plus_buffer (h : HandlerState) (name : String) (now : Int) :
    (cordonAndDrain h name none now).state.lastDrainScheduledFor
        = h.lastDrainScheduledFor + h.buffer ∧
    (cordonAndDrain h name none now).state.lastDrainScheduledFor
        = now + (h.lastDrainScheduledFor - now + h.buffer) ∧
    (cordonAndDrain h name none now).drainScheduled
        = some (h.lastDrainScheduledFor - now + h.buffer) := by
  refine ⟨?_, rfl, rfl⟩
  show now + (h.lastDrainScheduledFor - now + h.buffer)
      = h.lastDrainScheduledFor + h.buffer
  ring

/-- C2, counterexample: at the boundary `now = lastTransitionTime +
minimumDuration` the condition filter returns `false` (the code tests
`LastTransitionTime.Add(MinimumDuration).Before(now)`, which is strict),
while the claim counts the boundary as true: spec `Ready=False,5m`, a
node whose `Ready=False` condition transitioned at `0`, and
`now = 300000000000` ns (exactly 5 minutes later). -/
theorem c2_boundary_counterexample :
    NewNodeConditionFilter ["Ready=False,5m"] 300000000000
        (some ⟨"n1", "u1", [], [⟨"Ready", "False", 0⟩], false⟩) = some false ∧
    ParseConditions ["Ready=False,5m"]
        = some [⟨"Ready", "False", 300000000000⟩] ∧
    (0 : Int) + 300000000000 ≤ 300000000000 := by decide

/-- C2, amended: for every node object and every list of condition-spec
strings that parses without panicking, the condition filter returns true
iff the node has some current condition equal to some parsed spec on
(type, status) whose time since last transition is strictly greater than
that spec's minimum duration — the boundary `now = lastTransitionTime +
duration` counts as false; for an empty spec list the filter returns true
for every node object. -/
theorem c2_condition_filter (n : Node) (ct : List String) (now : Int) :
    (ct = [] → NewNodeConditionFilter ct now (some n) = some true) ∧
    (∀ pc, ParseConditions ct = some pc → ct ≠ [] →
      (NewNodeConditionFilter ct now (some n) = some true ↔
        ∃ t ∈ pc, ∃ c ∈ n.conditions,
          c.condType = t.condType ∧ c.condStatus = t.condStatus ∧
            c.lastTransitionTime + t.minimumDuration < now)) := by
  constructor
  · intro h
    subst h
    rfl
  · intro pc hpc hne
    have hlen : (ct.length == 0) = false := by
      cases ct with
      | nil => exact absurd rfl hne
      | cons a l => rfl
    have h1 : NewNodeConditionFilter ct now (some n)
        = some (pc.any (fun t =>
            n.conditions.any (fun c => conditionMatches now t c))) := by
      show (if ct.length == 0 then some true
            else (ParseConditions ct).map (fun pc =>
              pc.any (fun t =>
                n.conditions.any (fun c => conditionMatches now t c)))) = _
      rw [hlen]
      simp [hpc]
    rw [h1]
    simp [List.any_eq_true, conditionMatches, Bool.and_eq_true, beq_iff_eq,
      decide_eq_true_eq, and_assoc]

theorem c2_condition_filter_witness :
    NewNodeConditionFilter ["Ready=False,5m"] 300000000001
        (some ⟨"n1", "u1", [], [⟨"Ready", "False", 0⟩], false⟩) = some true :=
  ((c2_condition_filter ⟨"n1", "u1", [], [⟨"Ready", "False", 0⟩], false⟩
        ["Ready=False,5m"] 300000000001).2
      [⟨"Ready", "False", 300000000000⟩] (by decide) (by decide)).mpr
    ⟨⟨"Ready", "False", 300000000000⟩, by decide, ⟨"Ready", "False", 0⟩, by decide,
      rfl, rfl, by decide⟩

/-- C3: `ParseConditions ["Ready=False,5m"]` and `ParseConditions
["Ready"]` yield the claimed specs, and an entry whose value contains a
comma but a malformed duration (`"Ready=False,bad"`) is left as the
zero-value spec with the list length unchanged; but `ParseConditions
["Ready=bad"]` does not return a zero-value entry: `strings.SplitN("bad",
",", 2)` yields a one-element slice and the access `sm[1]` panics with an
index out of range (modelled as `none`). -/
theorem c3_parse_conditions_eval :
    ParseConditions ["Ready=False,5m"] = some [⟨"Ready", "False", 300000000000⟩] ∧
    ParseConditions ["Ready"] = some [⟨"Ready", "True", 0⟩] ∧
    ParseConditions ["Ready=bad"] = none ∧
    ParseConditions ["Ready=False,bad"] = some [zeroCondition] := by decide

/-- C4: in every sequence of orchestrator steps (cordon calls and
deferred-drain firings), `lastDrainScheduledFor` never decreases across a
step that is not a drain-fire reset, assuming a non-negative buffer. -/
theorem c4_pacing_clock_monotone (h : HandlerState) (steps : List HStep) (i : Nat)
    (hi : i < steps.length) (hb : 0 ≤ h.buffer)
    (hs : (steps.get ⟨i, hi⟩).isDrainFire = false) :
    (runSteps h (steps.take i)).lastDrainScheduledFor ≤
      (runSteps h (steps.take (i + 1))).lastDrainScheduledFor := by
  have htake : steps.take (i + 1) = steps.take i ++ [steps.get ⟨i, hi⟩] := by
    rw [List.take_succ, List.getElem?_eq_getElem hi]
    simp [List.get_eq_getElem]
  rw [htake, runSteps_append, runSteps_singleton]
  exact applyStep_mono _ _ (by rw [runSteps_buffer]; exact hb) hs

theorem c4_pacing_clock_monotone_witness :
    (runSteps ⟨0, 5⟩ (List.take 0 [HStep.cordon "n1" none 3])).lastDrainScheduledFor ≤
      (runSteps ⟨0, 5⟩ (List.take 1 [HStep.cordon "n1" none 3])).lastDrainScheduledFor :=
  c4_pacing_clock_monotone ⟨0, 5⟩ [HStep.cordon "n1" none 3] 0 (by decide)
    (by decide) (by decide)

/-- C5: for two nodes cordoned successfully in sequence with no deferred
drain firing in between, under the default 10-minute buffer, the two
computed scheduled drain times are at least 10 minutes apart from each
other. -/
theorem c5_consecutive_schedules_spaced (h : HandlerState) (n1 n2 : String)
    (t1 t2 : Int) (hb : h.buffer = DefaultDrainBuffer) :
    (cordonAndDrain (cordonAndDrain h n1 none t1).state n2 none
          t2).state.lastDrainScheduledFor
        - (cordonAndDrain h n1 none t1).state.lastDrainScheduledFor
      ≥ DefaultDrainBuffer := by
  have hd : DefaultDrainBuffer = (600000000000 : Int) := rfl
  show t2 + ((t1 + (h.lastDrainScheduledFor - t1 + h.buffer)) - t2 + h.buffer)
      - (t1 + (h.lastDrainScheduledFor - t1 + h.buffer)) ≥ DefaultDrainBuffer
  rw [hb, hd]
  omega

theorem c5_consecutive_schedules_spaced_witness :
    (cordonAndDrain (cordonAndDrain ⟨0, 600000000000⟩ "n1" none 0).state "n2" none
          1000000000).state.lastDrainScheduledFor
        - (cordonAndDrain ⟨0, 600000000000⟩ "n1" none 0).state.lastDrainScheduledFor
      ≥ DefaultDrainBuffer :=
  c5_consecutive_schedules_spaced ⟨0, 600000000000⟩ "n1" "n2" 0 1000000000 rfl

/-- C6: when the cordon capability returns an error, the handler emits
`CordonStarting` then `CordonFailed`, records exactly one
`nodes_cordoned` metric with result `failed`, and schedules no drain, so
the drain capability is never invoked for that node; the call returns
normally (the model is a total function). -/
theorem c6_cordon_failure_no_drain (h : HandlerState) (name err : String)
    (drainErr : Option String) (now : Int) :
    (processNode h name (some err) drainErr now).events
        = [⟨name, "CordonStarting"⟩, ⟨name, "CordonFailed"⟩] ∧
    (processNode h name (some err) drainErr now).metrics
        = [⟨"draino/nodes_cordoned", name, "failed"⟩] ∧
    (processNode h name (some err) drainErr now).drainInvoked = false :=
  ⟨rfl, rfl, rfl⟩

/-- C7: starting from a fresh `NodeProcessed` map, the filter call at the
position of a node object with a given UID returns true iff no earlier
object in the call sequence is a node with that UID — true on the first
call for an identifier, false on every subsequent call for it, regardless
of intervening calls for other identifiers. -/
theorem c7_processed_filter_first_only (pre post : List Obj) (n : Node) :
    (runProcessed NewNodeProcessed (pre ++ some n :: post))[pre.length]?
      = some (!(pre.any (seesUid n.uid))) := by
  rw [runProcessed_get]
  simp [NewNodeProcessed]

/-- C8: with both capabilities succeeding and a buffer of one second,
processing one node produces exactly the events `CordonStarting`,
`CordonSucceeded`, `DrainScheduled`, then (when the deferred action
fires) `DrainStarting`, `DrainSucceeded`, and each of the
`nodes_cordoned` and `nodes_drained` counters is recorded exactly once,
with result `succeeded`. -/
theorem c8_success_scenario (h : HandlerState) (name : String) (now : Int)
    (_hb : h.buffer = 1000000000) :
    (processNode h name none none now).events
        = [⟨name, "CordonStarting"⟩, ⟨name, "CordonSucceeded"⟩,
           ⟨name, "DrainScheduled"⟩, ⟨name, "DrainStarting"⟩,
           ⟨name, "DrainSucceeded"⟩] ∧
    (processNode h name none none now).metrics
        = [⟨"draino/nodes_cordoned", name, "succeeded"⟩,
           ⟨"draino/nodes_drained", name, "succeeded"⟩] ∧
    ((processNode h name none none now).metrics.filter
        (fun m => m.measure == "draino/nodes_cordoned"
          && m.result == "succeeded")).length = 1 ∧
    ((processNode h name none none now).metrics.filter
        (fun m => m.measure == "draino/nodes_drained"
          && m.result == "succeeded")).length = 1 :=
  ⟨rfl, rfl, rfl, rfl⟩

theorem c8_success_scenario_witness :
    (processNode ⟨0, 1000000000⟩ "n1" none none 0).events
        = [⟨"n1", "CordonStarting"⟩, ⟨"n1", "CordonSucceeded"⟩,
           ⟨"n1", "DrainScheduled"⟩, ⟨"n1", "DrainStarting"⟩,
           ⟨"n1", "DrainSucceeded"⟩] ∧
    (processNode ⟨0, 1000000000⟩ "n1" none none 0).metrics
        = [⟨"draino/nodes_cordoned", "n1", "succeeded"⟩,
           ⟨"draino/nodes_drained", "n1", "succeeded"⟩] ∧
    ((processNode ⟨0, 1000000000⟩ "n1" none none 0).metrics.filter
        (fun m => m.measure == "draino/nodes_cordoned"
          && m.result == "succeeded")).length = 1 ∧
    ((processNode ⟨0, 1000000000⟩ "n1" none none 0).metrics.filter
        (fun m => m.measure == "draino/nodes_drained"
          && m.result == "succeeded")).length = 1 :=
  c8_success_scenario ⟨0, 1000000000⟩ "n1" 0 rfl

/-- C9: the label filter returns true on a node object iff for every
required key the node's label map contains that key with an exactly equal
value; an empty required mapping yields true for every node object. -/
theorem c9_label_filter (labels : List (String × String)) (n : Node) :
    (NewNodeLabelFilter [] (some n) = true) ∧
    (NewNodeLabelFilter labels (some n) = true ↔
      ∀ kv ∈ labels, lookupLabel n.labels kv.1 = some kv.2) := by
  refine ⟨rfl, ?_⟩
  show labels.all _ = true ↔ _
  rw [List.all_eq_true]
  refine forall_congr' fun kv => imp_congr_right fun _ => ?_
  cases hl : lookupLabel n.labels kv.1 with
  | some v => simp [beq_iff_eq]
  | none => simp

/-- C10: when the cordon capability returns an error, the handler's
`lastDrainScheduledFor` and `buffer` fields are left unchanged — a failed
cordon consumes no pacing slot. -/
theorem c10_cordon_failure_frame (h : HandlerState) (name err : String)
    (drainErr : Option String) (now : Int) :
    (processNode h name (some err) drainErr now).state.lastDrainScheduledFor
        = h.lastDrainScheduledFor ∧
    (processNode h name (some err) drainErr now).state.buffer = h.buffer :=
  ⟨rfl, rfl⟩

end Draino
